import Mathlib

/-!
Verification of the unrust rendering core against its specification.

The Rust sources embedded here are:
* `src/engine/engine.rs` — render loop, GPU state cache, component-id counter;
* `src/engine/render/light.rs` — directional/point light world-space updates;
* `src/engine/render/material.rs` — material parameter table;
* `examples/shadow.rs` — the two-phase shadow technique.

Machine integers (`u32` counters) are modelled as `Nat` reduced mod `2 ^ 32`;
`f32` arithmetic is idealised as exact rational arithmetic (`ℚ`), with the
division-by-zero junk value `0` standing in for the IEEE junk values produced
on the degenerate paths; fallible operations (`unwrap`, `try_inverse`) are
modelled with `Option` / `Except`.
-/

set_option maxHeartbeats 1000000

namespace Unrust

/-! ## Engine state cache (`src/engine/engine.rs`) -/

/-- Embedding of `EngineContext` (engine.rs lines 25–32), the per-frame GPU
state cache.  Program identity (`Rc<ShaderProgram>` pointer identity) and mesh
component identity (the `u64` token) are modelled as naturals; the two `u32`
switch counters are naturals kept reduced mod `2 ^ 32`. -/
structure EngineContext where
  mesh : Option Nat
  switch_mesh : Nat
  switch_prog : Nat
  current_prog : Option Nat
  deriving DecidableEq, Repr

/-- `EngineContext::default()`: all counters zero, nothing bound. -/
def EngineContext.default : EngineContext :=
  { mesh := none, switch_mesh := 0, switch_prog := 0, current_prog := none }

/-- `EngineContext::need_prepare_program` (engine.rs 34–39): true when no
program is current, or the requested program differs by identity
(`Rc::ptr_eq`) from the current one. -/
def EngineContext.need_prepare_program (ctx : EngineContext) (prog : Nat) : Bool :=
  ctx.current_prog.isNone || !(some prog == ctx.current_prog)

/-- A drawable object as the render loop observes it: the pointer identity of
its material's shader program and the identity token of its mesh component. -/
structure RenderItem where
  prog : Nat
  meshId : Nat
  deriving DecidableEq, Repr

/-- Cache bookkeeping of `Engine::setup_material` (engine.rs 48–61): when the
program identity differs, prepare it, make it current and bump the `u32`
counter `switch_prog` (wrapping). -/
def setup_material (ctx : EngineContext) (prog : Nat) : EngineContext :=
  if ctx.need_prepare_program prog then
    { ctx with
      current_prog := some prog
      switch_prog := (ctx.switch_prog + 1) % 2 ^ 32 }
  else ctx

/-- Mesh-cache part of `Engine::render_object` (engine.rs 89–94): rebind and
bump `switch_mesh` when the cached mesh identity token differs
(`ctx.mesh.is_none() || ctx.mesh.unwrap() != com.id()`). -/
def render_object_mesh (ctx : EngineContext) (meshId : Nat) : EngineContext :=
  if ctx.mesh.isNone || !(some meshId == ctx.mesh) then
    { ctx with switch_mesh := (ctx.switch_mesh + 1) % 2 ^ 32 }
  else ctx

/-- One iteration of the loop body of `Engine::render` (engine.rs 107–119):
material setup, the mesh-cache check inside `render_object`, then the trailing
cache update `ctx.mesh = Some(meshcom.id())`. -/
def render_step (ctx : EngineContext) (o : RenderItem) : EngineContext :=
  let ctx1 := setup_material ctx o.prog
  let ctx2 := render_object_mesh ctx1 o.meshId
  { ctx2 with mesh := some o.meshId }

/-- `Engine::render` (engine.rs 99–121): fold the loop body over the object
list in insertion order, starting from `EngineContext::default()`. -/
def render (objs : List RenderItem) : EngineContext :=
  objs.foldl render_step EngineContext.default

/-- Number of maximal contiguous runs of equal values in a list, where a run
headed by `cur` is already open (`none`: no value current yet). -/
def runsFrom (cur : Option Nat) : List Nat → Nat
  | [] => 0
  | x :: xs => if some x == cur then runsFrom (some x) xs else 1 + runsFrom (some x) xs

/-- Number of maximal contiguous runs of equal values in a list. -/
def countRuns (l : List Nat) : Nat := runsFrom none l

theorem runsFrom_le_length (cur : Option Nat) (l : List Nat) :
    runsFrom cur l ≤ l.length := by
  induction l generalizing cur with
  | nil => simp [runsFrom]
  | cons x xs ih =>
    simp only [runsFrom, List.length_cons]
    have := ih (some x)
    split <;> omega

theorem runsFrom_replicate (p : Nat) (n : Nat) (hn : 0 < n) :
    runsFrom none (List.replicate n p) = 1 := by
  obtain ⟨m, rfl⟩ : ∃ m, n = m + 1 := ⟨n - 1, (Nat.succ_pred_eq_of_pos hn).symm⟩
  have key : ∀ k, runsFrom (some p) (List.replicate k p) = 0 := by
    intro k
    induction k with
    | zero => simp [runsFrom]
    | succ k ih => simpa [List.replicate_succ, runsFrom] using ih
  simp [List.replicate_succ, runsFrom, key m]

theorem render_step_current_prog (ctx : EngineContext) (o : RenderItem) :
    (render_step ctx o).current_prog = some o.prog := by
  obtain ⟨ms, sm, sp, cp⟩ := ctx
  by_cases h : some o.prog = cp
  · have hb : (some o.prog == cp) = true := beq_iff_eq.mpr h
    simp only [render_step, setup_material, render_object_mesh,
      EngineContext.need_prepare_program, hb, ← h]
    split <;> split <;> simp_all
  · have hb : (some o.prog == cp) = false := beq_eq_false_iff_ne.mpr h
    simp only [render_step, setup_material, render_object_mesh,
      EngineContext.need_prepare_program, hb]
    split <;> split <;> simp_all

theorem render_step_mesh (ctx : EngineContext) (o : RenderItem) :
    (render_step ctx o).mesh = some o.meshId := by
  simp only [render_step, render_object_mesh]

theorem render_step_switch_prog (ctx : EngineContext) (o : RenderItem) :
    (render_step ctx o).switch_prog =
      if some o.prog = ctx.current_prog then ctx.switch_prog
      else (ctx.switch_prog + 1) % 2 ^ 32 := by
  obtain ⟨ms, sm, sp, cp⟩ := ctx
  by_cases h : some o.prog = cp
  · have hb : (some o.prog == cp) = true := beq_iff_eq.mpr h
    rw [if_pos h]
    simp only [render_step, setup_material, render_object_mesh,
      EngineContext.need_prepare_program, hb, ← h]
    split <;> split <;> simp_all
  · have hb : (some o.prog == cp) = false := beq_eq_false_iff_ne.mpr h
    rw [if_neg h]
    simp only [render_step, setup_material, render_object_mesh,
      EngineContext.need_prepare_program, hb]
    split <;> split <;> simp_all

theorem render_step_switch_mesh (ctx : EngineContext) (o : RenderItem) :
    (render_step ctx o).switch_mesh =
      if some o.meshId = ctx.mesh then ctx.switch_mesh
      else (ctx.switch_mesh + 1) % 2 ^ 32 := by
  obtain ⟨ms, sm, sp, cp⟩ := ctx
  by_cases h : some o.meshId = ms
  · have hb : (some o.meshId == ms) = true := beq_iff_eq.mpr h
    rw [if_pos h]
    simp only [render_step, setup_material, render_object_mesh,
      EngineContext.need_prepare_program, hb, ← h]
    split <;> split <;> simp_all
  · have hb : (some o.meshId == ms) = false := beq_eq_false_iff_ne.mpr h
    rw [if_neg h]
    simp only [render_step, setup_material, render_object_mesh,
      EngineContext.need_prepare_program, hb]
    split <;> split <;> simp_all

theorem render_step_switch_prog_lt (ctx : EngineContext) (o : RenderItem)
    (hc : ctx.switch_prog < 2 ^ 32) : (render_step ctx o).switch_prog < 2 ^ 32 := by
  rw [render_step_switch_prog]
  split
  · exact hc
  · exact Nat.mod_lt _ (by norm_num)

theorem render_step_switch_mesh_lt (ctx : EngineContext) (o : RenderItem)
    (hc : ctx.switch_mesh < 2 ^ 32) : (render_step ctx o).switch_mesh < 2 ^ 32 := by
  rw [render_step_switch_mesh]
  split
  · exact hc
  · exact Nat.mod_lt _ (by norm_num)

theorem fold_switch_prog (objs : List RenderItem) (ctx : EngineContext)
    (hc : ctx.switch_prog < 2 ^ 32) :
    (objs.foldl render_step ctx).switch_prog =
      (ctx.switch_prog + runsFrom ctx.current_prog (objs.map RenderItem.prog)) % 2 ^ 32 := by
  induction objs generalizing ctx with
  | nil => simpa [runsFrom] using (Nat.mod_eq_of_lt hc).symm
  | cons o rest ih =>
    rw [List.map_cons, List.foldl_cons,
      ih (render_step ctx o) (render_step_switch_prog_lt ctx o hc),
      render_step_current_prog, render_step_switch_prog]
    by_cases h : some o.prog = ctx.current_prog
    · rw [if_pos h, ← h]
      simp [runsFrom]
    · have hbeq : (some o.prog == ctx.current_prog) = false := beq_eq_false_iff_ne.mpr h
      simp only [if_neg h, runsFrom, hbeq, Bool.false_eq_true, if_false]
      omega

theorem fold_switch_mesh (objs : List RenderItem) (ctx : EngineContext)
    (hc : ctx.switch_mesh < 2 ^ 32) :
    (objs.foldl render_step ctx).switch_mesh =
      (ctx.switch_mesh + runsFrom ctx.mesh (objs.map RenderItem.meshId)) % 2 ^ 32 := by
  induction objs generalizing ctx with
  | nil => simpa [runsFrom] using (Nat.mod_eq_of_lt hc).symm
  | cons o rest ih =>
    rw [List.map_cons, List.foldl_cons,
      ih (render_step ctx o) (render_step_switch_mesh_lt ctx o hc),
      render_step_mesh, render_step_switch_mesh]
    by_cases h : some o.meshId = ctx.mesh
    · rw [if_pos h, ← h]
      simp [runsFrom]
    · have hbeq : (some o.meshId == ctx.mesh) = false := beq_eq_false_iff_ne.mpr h
      simp only [if_neg h, runsFrom, hbeq, Bool.false_eq_true, if_false]
      omega

/-- C1: after one `render()` call, `switch_prog` equals the number of maximal
contiguous runs of identical program identity in draw order, `switch_mesh`
equals the number of maximal contiguous runs of identical mesh component
identity, and for `n` consecutive objects sharing one program and one mesh
identity both counters are `1` regardless of `n`.  (The `u32` counters cannot
wrap because the object list is shorter than `2 ^ 32`.) -/
theorem c1_state_cache_counts_runs (objs : List RenderItem)
    (h : objs.length < 2 ^ 32) :
    (render objs).switch_prog = countRuns (objs.map RenderItem.prog) ∧
    (render objs).switch_mesh = countRuns (objs.map RenderItem.meshId) ∧
    ∀ p m n, 0 < n →
      (render (List.replicate n ⟨p, m⟩)).switch_prog = 1 ∧
      (render (List.replicate n ⟨p, m⟩)).switch_mesh = 1 := by
  have hp := fold_switch_prog objs EngineContext.default (by simp [EngineContext.default])
  have hm := fold_switch_mesh objs EngineContext.default (by simp [EngineContext.default])
  simp only [EngineContext.default, Nat.zero_add] at hp hm
  have hruns_p : runsFrom none (objs.map RenderItem.prog) < 2 ^ 32 :=
    lt_of_le_of_lt (by simpa using runsFrom_le_length none (objs.map RenderItem.prog)) h
  have hruns_m : runsFrom none (objs.map RenderItem.meshId) < 2 ^ 32 :=
    lt_of_le_of_lt (by simpa using runsFrom_le_length none (objs.map RenderItem.meshId)) h
  refine ⟨?_, ?_, ?_⟩
  · rw [render, EngineContext.default, hp, Nat.mod_eq_of_lt hruns_p, countRuns]
  · rw [render, EngineContext.default, hm, Nat.mod_eq_of_lt hruns_m, countRuns]
  · intro p m n hn
    have hp' := fold_switch_prog (List.replicate n ⟨p, m⟩) EngineContext.default
      (by simp [EngineContext.default])
    have hm' := fold_switch_mesh (List.replicate n ⟨p, m⟩) EngineContext.default
      (by simp [EngineContext.default])
    simp only [EngineContext.default, Nat.zero_add, List.map_replicate] at hp' hm'
    rw [runsFrom_replicate p n hn] at hp'
    rw [runsFrom_replicate m n hn] at hm'
    constructor
    · rw [render, EngineContext.default, hp']; norm_num
    · rw [render, EngineContext.default, hm']; norm_num

/-- Witness for C1 at a concrete frame: objects with program identities
`[1, 1, 2]` and mesh identities `[10, 11, 11]` yield two program switches and
two mesh switches. -/
theorem c1_state_cache_counts_runs_witness :
    (render [⟨1, 10⟩, ⟨1, 11⟩, ⟨2, 11⟩]).switch_prog = 2 ∧
    (render [⟨1, 10⟩, ⟨1, 11⟩, ⟨2, 11⟩]).switch_mesh = 2 := by
  have h := c1_state_cache_counts_runs [⟨1, 10⟩, ⟨1, 11⟩, ⟨2, 11⟩] (by norm_num)
  exact ⟨h.1.trans (by decide), h.2.1.trans (by decide)⟩

/-! ## Linear algebra embedding (cgmath / nalgebra operations over `ℚ`) -/

/-- A 3-component `f32` vector, idealised over `ℚ`. -/
structure V3 where
  x : ℚ
  y : ℚ
  z : ℚ
  deriving DecidableEq, Repr

/-- 4×4 `f32` matrix, idealised over `ℚ`. -/
abbrev Mat4 := Matrix (Fin 4) (Fin 4) ℚ

/-- 3×3 `f32` matrix, idealised over `ℚ`. -/
abbrev Mat3 := Matrix (Fin 3) (Fin 3) ℚ

def V3.add (a b : V3) : V3 := ⟨a.x + b.x, a.y + b.y, a.z + b.z⟩

def V3.sub (a b : V3) : V3 := ⟨a.x - b.x, a.y - b.y, a.z - b.z⟩

def V3.neg (a : V3) : V3 := ⟨-a.x, -a.y, -a.z⟩

def V3.smul (c : ℚ) (a : V3) : V3 := ⟨c * a.x, c * a.y, c * a.z⟩

def V3.dot (a b : V3) : ℚ := a.x * b.x + a.y * b.y + a.z * b.z

def V3.cross (a b : V3) : V3 :=
  ⟨a.y * b.z - a.z * b.y, a.z * b.x - a.x * b.z, a.x * b.y - a.y * b.x⟩

/-- `normalize` of cgmath/nalgebra: divide the vector by its Euclidean norm.
`f32` `sqrt` is idealised by `Rat.sqrt`, which is exact on perfect-square
radicands — the only radicands reached by the statements proved below; on the
degenerate zero vector the junk value `0` stands in for the `NaN` that `f32`
would produce. -/
def V3.normalize (a : V3) : V3 := V3.smul (Rat.sqrt (a.dot a))⁻¹ a

/-- cgmath `Matrix4::transform_vector` (`(self * vec.extend(0)).truncate()`),
used by `Directional::update`. -/
def transformVector (m : Mat4) (v : V3) : V3 :=
  ⟨m 0 0 * v.x + m 0 1 * v.y + m 0 2 * v.z,
   m 1 0 * v.x + m 1 1 * v.y + m 1 2 * v.z,
   m 2 0 * v.x + m 2 1 * v.y + m 2 2 * v.z⟩

/-- cgmath `Matrix4::transform_point` (`Point3::from_homogeneous(self * p.to_homogeneous())`,
which divides the truncated result by the resulting `w`), used by `Point::update`. -/
def transformPoint (m : Mat4) (p : V3) : V3 :=
  let w := m 3 0 * p.x + m 3 1 * p.y + m 3 2 * p.z + m 3 3
  ⟨(m 0 0 * p.x + m 0 1 * p.y + m 0 2 * p.z + m 0 3) / w,
   (m 1 0 * p.x + m 1 1 * p.y + m 1 2 * p.z + m 1 3) / w,
   (m 2 0 * p.x + m 2 1 * p.y + m 2 2 * p.z + m 2 3) / w⟩

/-- cgmath `SquareMatrix::invert` / nalgebra `try_inverse`: `None` on zero
determinant, otherwise the inverse (adjugate over determinant). -/
def tryInverse (m : Mat4) : Option Mat4 :=
  if m.det = 0 then none else some ((m.det)⁻¹ • m.adjugate)

theorem tryInverse_eq_of_inv (m n : Mat4) (h : m * n = 1) :
    tryInverse m = some n := by
  have hdet : m.det ≠ 0 := by
    intro h0
    have hmul := Matrix.det_mul m n
    rw [h, Matrix.det_one, h0, zero_mul] at hmul
    exact one_ne_zero hmul
  have hinv : m⁻¹ = n := Matrix.inv_eq_right_inv h
  unfold tryInverse
  rw [if_neg hdet]
  congr 1
  rw [← hinv, Matrix.inv_def, Ring.inverse_eq_inv]

theorem transformVector_one (v : V3) : transformVector 1 v = v := by
  cases v
  simp [transformVector, Matrix.one_apply]

/-! ## Light system (`src/engine/render/light.rs`) -/

/-- The `Directional` light variant (light.rs 58–65). -/
structure Directional where
  direction : V3
  ambient : V3
  diffuse : V3
  specular : V3
  world_space_direction : V3
  deriving DecidableEq, Repr

/-- `Directional::update` (light.rs 104–107): the world-space direction is the
local direction transformed by the transposed inverse of the model matrix
(`modelm.inverse_transform().unwrap().transpose()` then `transform_vector`) —
with no normalisation step.  `none` models the `unwrap` panic on a singular
model matrix. -/
def Directional.update (l : Directional) (modelm : Mat4) : Option Directional :=
  (tryInverse modelm).map fun m =>
    { l with world_space_direction := transformVector m.transpose l.direction }

/-- The `Point` light variant (light.rs 110–122). -/
structure Point where
  position : V3
  ambient : V3
  diffuse : V3
  specular : V3
  constant : ℚ
  linear : ℚ
  quadratic : ℚ
  world_space_position : V3
  deriving DecidableEq, Repr

/-- `Point::update` (light.rs 163–167): full affine/projective transform of
the local position by the model matrix (`transform_point`). -/
def Point.update (l : Point) (modelm : Mat4) : Point :=
  { l with world_space_position := transformPoint modelm l.position }

/-- The uniform-scaling model matrix diag(2,2,2,1). -/
def scaleTwo : Mat4 := !![2, 0, 0, 0; 0, 2, 0, 0; 0, 0, 2, 0; 0, 0, 0, 1]

/-- Its inverse diag(1/2,1/2,1/2,1). -/
def scaleHalf : Mat4 :=
  !![1/2, 0, 0, 0; 0, 1/2, 0, 0; 0, 0, 1/2, 0; 0, 0, 0, 1]

/-- A directional light with normalized local direction `(0,0,1)`. -/
def dirLightZ : Directional :=
  { direction := ⟨0, 0, 1⟩
    ambient := ⟨0.212, 0.227, 0.259⟩
    diffuse := ⟨1, 0.957, 0.839⟩
    specular := ⟨1, 1, 1⟩
    world_space_direction := ⟨0, 0, 1⟩ }

theorem scaleTwo_mul_scaleHalf : scaleTwo * scaleHalf = 1 := by
  ext i j
  fin_cases i <;> fin_cases j <;>
    simp [scaleTwo, scaleHalf, Matrix.mul_apply, Fin.sum_univ_four, Matrix.one_apply,
      Matrix.vecHead, Matrix.vecTail]

/-- C2 counterexample: for the invertible model matrix diag(2,2,2,1) and the
normalized local direction (0,0,1), `Directional::update` stores
world direction (0,0,1/2) — the bare normal-matrix transform — whereas the
claim's `normalize(transpose(inverse(M)) · d)` is (0,0,1); the two differ. -/
theorem c2_counterexample :
    (Directional.update dirLightZ scaleTwo).map Directional.world_space_direction =
      some ⟨0, 0, 1/2⟩ ∧
    transformVector scaleHalf.transpose dirLightZ.direction = ⟨0, 0, 1/2⟩ ∧
    V3.normalize ⟨0, 0, 1/2⟩ = ⟨0, 0, 1⟩ ∧
    (⟨0, 0, 1/2⟩ : V3) ≠ ⟨0, 0, 1⟩ := by
  have hinv := tryInverse_eq_of_inv scaleTwo scaleHalf scaleTwo_mul_scaleHalf
  have hsqrt : Rat.sqrt ((⟨0, 0, 1/2⟩ : V3).dot ⟨0, 0, 1/2⟩) = 1/2 := by
    have hd : (⟨0, 0, 1/2⟩ : V3).dot ⟨0, 0, 1/2⟩ = (1/2 : ℚ) * (1/2) := by
      simp [V3.dot]
    rw [hd, Rat.sqrt_eq]
    norm_num
  refine ⟨?_, ?_, ?_, ?_⟩
  · rw [Directional.update, hinv]
    simp [dirLightZ, transformVector, scaleHalf, Matrix.transpose_apply,
      Matrix.vecHead, Matrix.vecTail]
  · simp [dirLightZ, transformVector, scaleHalf, Matrix.transpose_apply,
      Matrix.vecHead, Matrix.vecTail]
  · rw [V3.normalize, hsqrt]
    simp [V3.smul]
  · intro hcontra
    have hz := congrArg V3.z hcontra
    norm_num at hz

/-- C2 (amended): `Directional::update(M)` with invertible `M` (inverse `N`)
sets `world_space_direction` to `transpose(N) · local_direction` with no
normalisation; in particular, with the identity model matrix the world-space
direction equals the local direction. -/
theorem c2_directional_update_unnormalized (l : Directional) (M N : Mat4)
    (h1 : M * N = 1) :
    Directional.update l M =
      some { l with world_space_direction := transformVector N.transpose l.direction } ∧
    Directional.update l 1 =
      some { l with world_space_direction := l.direction } := by
  constructor
  · rw [Directional.update, tryInverse_eq_of_inv M N h1]
    rfl
  · rw [Directional.update, tryInverse_eq_of_inv 1 1 (by rw [one_mul])]
    simp [transformVector_one, Matrix.transpose_one]

/-- Witness for C2: the identity model matrix indeed leaves the (already
normalized) default-style direction unchanged. -/
theorem c2_directional_update_unnormalized_witness :
    Directional.update dirLightZ 1 = some dirLightZ := by
  have h := (c2_directional_update_unnormalized dirLightZ 1 1 (by rw [one_mul])).2
  rw [h]
  rfl

/-- The homogeneous pure-translation matrix of a vector `t`. -/
def translationMat (t : V3) : Mat4 :=
  !![1, 0, 0, t.x; 0, 1, 0, t.y; 0, 0, 1, t.z; 0, 0, 0, 1]

/-- C6: `Point::update(M)` stores the full affine image of the local position
(translation included) whenever `M` is affine (last row `(0,0,0,1)`); in
particular a pure-translation matrix adds its translation vector. -/
theorem c6_point_update_affine (l : Point) (M : Mat4)
    (h0 : M 3 0 = 0) (h1 : M 3 1 = 0) (h2 : M 3 2 = 0) (h3 : M 3 3 = 1) :
    (Point.update l M).world_space_position =
      ⟨M 0 0 * l.position.x + M 0 1 * l.position.y + M 0 2 * l.position.z + M 0 3,
       M 1 0 * l.position.x + M 1 1 * l.position.y + M 1 2 * l.position.z + M 1 3,
       M 2 0 * l.position.x + M 2 1 * l.position.y + M 2 2 * l.position.z + M 2 3⟩ ∧
    ∀ (t : V3) (k : Point),
      (Point.update k (translationMat t)).world_space_position =
        k.position.add t := by
  constructor
  · simp [Point.update, transformPoint, h0, h1, h2, h3]
  · intro t k
    simp [Point.update, transformPoint, translationMat, V3.add,
      Matrix.vecHead, Matrix.vecTail, V3.mk.injEq]

/-- Witness for C6: translating the point (4,5,6) by (1,2,3) yields (5,7,9). -/
theorem c6_point_update_affine_witness :
    (Point.update
        { position := ⟨4, 5, 6⟩, ambient := ⟨0, 0, 0⟩, diffuse := ⟨0, 0, 0⟩,
          specular := ⟨0, 0, 0⟩, constant := 1, linear := 0, quadratic := 0,
          world_space_position := ⟨0, 0, 0⟩ }
        (translationMat ⟨1, 2, 3⟩)).world_space_position = ⟨5, 7, 9⟩ := by
  have h := (c6_point_update_affine
    { position := ⟨4, 5, 6⟩, ambient := ⟨0, 0, 0⟩, diffuse := ⟨0, 0, 0⟩,
      specular := ⟨0, 0, 0⟩, constant := 1, linear := 0, quadratic := 0,
      world_space_position := ⟨0, 0, 0⟩ }
    (translationMat ⟨1, 2, 3⟩)
    rfl rfl rfl rfl).2 ⟨1, 2, 3⟩
    { position := ⟨4, 5, 6⟩, ambient := ⟨0, 0, 0⟩, diffuse := ⟨0, 0, 0⟩,
      specular := ⟨0, 0, 0⟩, constant := 1, linear := 0, quadratic := 0,
      world_space_position := ⟨0, 0, 0⟩ }
  rw [h]
  simp [V3.add, V3.mk.injEq]
  norm_num

/-! ## Invertibility of engine model matrices (`Engine::new_gameobject` /
`Engine::render_object`) -/

/-- nalgebra `Isometry3::to_homogeneous`: rotation block, translation column,
last row `(0,0,0,1)`.  `Engine::new_gameobject` (engine.rs 123–131) stores an
`Isometry3`, whose rotation block (from a unit quaternion) is orthogonal. -/
def toHomogeneous (R : Mat3) (t : V3) : Mat4 :=
  !![R 0 0, R 0 1, R 0 2, t.x;
     R 1 0, R 1 1, R 1 2, t.y;
     R 2 0, R 2 1, R 2 2, t.z;
     0, 0, 0, 1]

theorem submatrix_toHomogeneous (R : Mat3) (t : V3) :
    (toHomogeneous R t).submatrix (Fin.succAbove 3) (Fin.succAbove 3) = R := by
  ext i j
  fin_cases i <;> fin_cases j <;> rfl

theorem det_toHomogeneous (R : Mat3) (t : V3) :
    (toHomogeneous R t).det = R.det := by
  have h := @Matrix.det_succ_row ℚ _ 3 (toHomogeneous R t) 3
  rw [Fin.sum_univ_four] at h
  have e0 : toHomogeneous R t 3 0 = 0 := rfl
  have e1 : toHomogeneous R t 3 1 = 0 := rfl
  have e2 : toHomogeneous R t 3 2 = 0 := rfl
  have e3 : toHomogeneous R t 3 3 = 1 := rfl
  rw [e0, e1, e2, e3, submatrix_toHomogeneous] at h
  rw [h]
  norm_num

/-- C10: the homogeneous model matrix of a rigid transform (orthogonal
rotation block `R`, any translation `t`) is invertible, so the
`try_inverse().unwrap()` in `Engine::render_object` (engine.rs 83) cannot
panic for engine-created objects. -/
theorem c10_model_matrix_invertible (R : Mat3) (t : V3)
    (h : R.transpose * R = 1) :
    (tryInverse (toHomogeneous R t)).isSome = true := by
  have hdetR : R.det ≠ 0 := by
    intro h0
    have hc := congrArg Matrix.det h
    rw [Matrix.det_mul, Matrix.det_transpose, Matrix.det_one, h0, zero_mul] at hc
    exact zero_ne_one hc
  unfold tryInverse
  rw [det_toHomogeneous, if_neg hdetR]
  rfl

/-- Witness for C10: the identity rotation with translation (1,2,3). -/
theorem c10_model_matrix_invertible_witness :
    (tryInverse (toHomogeneous 1 ⟨1, 2, 3⟩)).isSome = true :=
  c10_model_matrix_invertible 1 ⟨1, 2, 3⟩ (by rw [Matrix.transpose_one, one_mul])


/-! ## Shadow technique (`examples/shadow.rs`) -/

/-- nalgebra `Matrix4::new_orthographic(left, right, bottom, top, znear, zfar)`
(the OpenGL orthographic projection). -/
def orthographic (l r b t zn zf : ℚ) : Mat4 :=
  !![2/(r-l), 0, 0, -(r+l)/(r-l);
     0, 2/(t-b), 0, -(t+b)/(t-b);
     0, 0, -2/(zf-zn), -(zf+zn)/(zf-zn);
     0, 0, 0, 1]

/-- nalgebra `Matrix4::look_at_rh(eye, target, up)`: homogenisation of
`Isometry3::look_at_rh`, whose rotation rows are the normalized camera axes
(`zaxis = normalize(eye - target)`, `xaxis = normalize(up × zaxis)`,
`yaxis = normalize(zaxis × xaxis)`) and whose translation is the rotated
negated eye. -/
def lookAtRH (eye target up : V3) : Mat4 :=
  let zaxis := (eye.sub target).normalize
  let xaxis := (up.cross zaxis).normalize
  let yaxis := (zaxis.cross xaxis).normalize
  !![xaxis.x, xaxis.y, xaxis.z, -(xaxis.dot eye);
     yaxis.x, yaxis.y, yaxis.z, -(yaxis.dot eye);
     zaxis.x, zaxis.y, zaxis.z, -(zaxis.dot eye);
     0, 0, 0, 1]

/-- The fixed light-space projection of `Shadow::update` (shadow.rs 174):
`Matrix4::new_orthographic(-20.0, 20.0, -20.0, 20.0, -20.0, 40.0)`. -/
def shadowProj : Mat4 := orthographic (-20) 20 (-20) 20 (-20) 40

/-- The eye point passed to the look-at construction (shadow.rs 175):
`Point3 { coords: -lightdir }`. -/
def shadowEye (d : V3) : V3 := d.neg

/-- The shadow view matrix (shadow.rs 176–177):
`Matrix4::look_at_rh(&light_target, &Point3::new(0,0,0), &Vector3::y())`. -/
def shadowView (d : V3) : Mat4 := lookAtRH (shadowEye d) ⟨0, 0, 0⟩ ⟨0, 1, 0⟩

/-- The shadow matrix pushed into the materials (shadow.rs 181, 185):
`proj * view`. -/
def shadowMatrix (d : V3) : Mat4 := shadowProj * shadowView d

/-- The observable state mutated by `Shadow::update` (shadow.rs 163–208): the
camera's render-target and viewport overrides, the `active` flags of the cube
and of the shadow-display object, and the `"uShadowMatrix"` parameter of the
cube's and the plane's surface materials.  The render texture is identified by
a `Nat` handle; the viewport rect is `((x, y), (w, h))` flattened. -/
structure ShadowState where
  render_texture : Option Nat
  rect : Option (Nat × Nat × Nat × Nat)
  cubeActive : Bool
  displayActive : Bool
  cubeShadowParam : Option Mat4
  planeShadowParam : Option Mat4

/-- The eleven sequential state mutations of one `Shadow::update` call
(shadow.rs 168–207), in program order: store the shadow matrix in the cube's
and the plane's material; hijack the camera (`render_texture`, `rect`); show
only the cube; run the depth render pass (reads, but does not mutate, these
fields); restore visibility; clear both camera overrides. -/
def shadowSteps (d : V3) (rt : Nat) : List (ShadowState → ShadowState) :=
  [ fun s => { s with cubeShadowParam := some (shadowMatrix d) },
    fun s => { s with planeShadowParam := some (shadowMatrix d) },
    fun s => { s with render_texture := some rt },
    fun s => { s with rect := some (0, 0, 1024, 1024) },
    fun s => { s with cubeActive := true },
    fun s => { s with displayActive := false },
    fun s => s,
    fun s => { s with cubeActive := false },
    fun s => { s with displayActive := true },
    fun s => { s with render_texture := none },
    fun s => { s with rect := none } ]

/-- `Shadow::update` (shadow.rs 163–208): run the mutations in order. -/
def shadowUpdate (d : V3) (rt : Nat) (s : ShadowState) : ShadowState :=
  (shadowSteps d rt).foldl (fun st f => f st) s

/-- The state after the first `i` mutations of one `Shadow::update` call. -/
def stateTrace (d : V3) (rt : Nat) (s : ShadowState) (i : Nat) : ShadowState :=
  ((shadowSteps d rt).take i).foldl (fun st f => f st) s

/-- C3: after `Shadow::update` both camera overrides are `None` whatever the
incoming state was; and on a frame that starts with both overrides `None` (as
every frame after the first does, by the first conjunct) the overrides are
non-`None` only strictly inside the shadow sub-pass — after mutation 3
(`cam.render_texture = Some(rt)`) and before mutation 11 (`cam.rect = None`)
completes — never at the frame boundaries. -/
theorem c3_camera_overrides_cleared (d : V3) (rt : Nat) (s : ShadowState)
    (h1 : s.render_texture = none) (h2 : s.rect = none) :
    (∀ s' : ShadowState, (shadowUpdate d rt s').render_texture = none ∧
      (shadowUpdate d rt s').rect = none) ∧
    (∀ i, i ≤ 11 →
      ((stateTrace d rt s i).render_texture ≠ none ∨ (stateTrace d rt s i).rect ≠ none) →
      3 ≤ i ∧ i ≤ 10) := by
  constructor
  · intro s'
    constructor <;> rfl
  · intro i hi hne
    interval_cases i <;>
      simp_all [stateTrace, shadowSteps]

/-- Witness for C3 at a concrete input: light direction (0,−1,0), render
texture handle 7, and a quiescent starting state. -/
theorem c3_camera_overrides_cleared_witness :
    (shadowUpdate ⟨0, -1, 0⟩ 7
        { render_texture := none, rect := none, cubeActive := false,
          displayActive := true, cubeShadowParam := none,
          planeShadowParam := none }).render_texture = none ∧
    (shadowUpdate ⟨0, -1, 0⟩ 7
        { render_texture := none, rect := none, cubeActive := false,
          displayActive := true, cubeShadowParam := none,
          planeShadowParam := none }).rect = none := by
  exact (c3_camera_overrides_cleared ⟨0, -1, 0⟩ 7
    { render_texture := none, rect := none, cubeActive := false,
      displayActive := true, cubeShadowParam := none, planeShadowParam := none }
    rfl rfl).1 _

/-- C4: every `Shadow::update` writes `proj * view` into the `"uShadowMatrix"`
parameter of both shadow-receiving materials (cube and plane), where `view` is
the look-at from `-light_direction` toward the origin with up = +Y and `proj`
is the orthographic projection with x ∈ [−20,20], y ∈ [−20,20], near −20,
far 40 — i.e. the projection scaling x and y by 1/20 and sending z to
−z/30 − 1/3 (so z = 20 ↦ −1 and z = −40 ↦ 1). -/
theorem c4_shadow_matrix_written (d : V3) (rt : Nat) (s : ShadowState) :
    (shadowUpdate d rt s).cubeShadowParam = some (shadowProj * shadowView d) ∧
    (shadowUpdate d rt s).planeShadowParam = some (shadowProj * shadowView d) ∧
    shadowView d = lookAtRH (shadowEye d) ⟨0, 0, 0⟩ ⟨0, 1, 0⟩ ∧
    ∀ v : V3, shadowProj.mulVec ![v.x, v.y, v.z, 1] =
      ![v.x / 20, v.y / 20, -v.z / 30 - 1/3, 1] := by
  refine ⟨rfl, rfl, rfl, ?_⟩
  intro v
  funext i
  fin_cases i <;>
    simp [shadowProj, orthographic, Matrix.mulVec, Matrix.dotProduct,
      Fin.sum_univ_four, Matrix.vecHead, Matrix.vecTail] <;>
    ring

theorem normalize_unitY : V3.normalize ⟨0, 1, 0⟩ = ⟨0, 1, 0⟩ := by
  have hd : (⟨0, 1, 0⟩ : V3).dot ⟨0, 1, 0⟩ = (1 : ℚ) * 1 := by
    simp [V3.dot]
  rw [V3.normalize, hd, Rat.sqrt_eq]
  simp [V3.smul]

theorem normalize_zeroV : V3.normalize ⟨0, 0, 0⟩ = ⟨0, 0, 0⟩ := by
  have hd : (⟨0, 0, 0⟩ : V3).dot ⟨0, 0, 0⟩ = (0 : ℚ) * 0 := by
    simp [V3.dot]
  rw [V3.normalize, hd, Rat.sqrt_eq]
  simp [V3.smul]

theorem normalize_y20 : V3.normalize ⟨0, 20, 0⟩ = ⟨0, 1, 0⟩ := by
  have hd : (⟨0, 20, 0⟩ : V3).dot ⟨0, 20, 0⟩ = (20 : ℚ) * 20 := by
    simp [V3.dot]
  rw [V3.normalize, hd, Rat.sqrt_eq]
  simp [V3.smul, V3.mk.injEq]


theorem lookAt_from_eye1 :
    lookAtRH ⟨0, 1, 0⟩ ⟨0, 0, 0⟩ ⟨0, 1, 0⟩ =
      !![0, 0, 0, 0; 0, 0, 0, 0; 0, 1, 0, -1; 0, 0, 0, 1] := by
  have hsub : (⟨0, 1, 0⟩ : V3).sub ⟨0, 0, 0⟩ = ⟨0, 1, 0⟩ := by
    simp [V3.sub]
  have hcross : (⟨0, 1, 0⟩ : V3).cross ⟨0, 1, 0⟩ = ⟨0, 0, 0⟩ := by
    simp [V3.cross]
  have hcross2 : (⟨0, 1, 0⟩ : V3).cross ⟨0, 0, 0⟩ = ⟨0, 0, 0⟩ := by
    simp [V3.cross]
  rw [lookAtRH]
  rw [hsub, normalize_unitY, hcross, normalize_zeroV, hcross2, normalize_zeroV]
  ext i j
  fin_cases i <;> fin_cases j <;>
    simp [V3.dot, Matrix.vecHead, Matrix.vecTail]

theorem lookAt_from_eye20 :
    lookAtRH ⟨0, 20, 0⟩ ⟨0, 0, 0⟩ ⟨0, 1, 0⟩ =
      !![0, 0, 0, 0; 0, 0, 0, 0; 0, 1, 0, -20; 0, 0, 0, 1] := by
  have hsub : (⟨0, 20, 0⟩ : V3).sub ⟨0, 0, 0⟩ = ⟨0, 20, 0⟩ := by
    simp [V3.sub]
  have hcross : (⟨0, 1, 0⟩ : V3).cross ⟨0, 1, 0⟩ = ⟨0, 0, 0⟩ := by
    simp [V3.cross]
  have hcross2 : (⟨0, 1, 0⟩ : V3).cross ⟨0, 0, 0⟩ = ⟨0, 0, 0⟩ := by
    simp [V3.cross]
  rw [lookAtRH]
  rw [hsub, normalize_y20, hcross, normalize_zeroV, hcross2, normalize_zeroV]
  ext i j
  fin_cases i <;> fin_cases j <;>
    simp [V3.dot, Matrix.vecHead, Matrix.vecTail]

theorem shadowView_down :
    shadowView ⟨0, -1, 0⟩ = lookAtRH ⟨0, 1, 0⟩ ⟨0, 0, 0⟩ ⟨0, 1, 0⟩ := by
  have he : shadowEye ⟨0, -1, 0⟩ = ⟨0, 1, 0⟩ := by
    simp [shadowEye, V3.neg]
  rw [shadowView, he]

/-- C5 counterexample: for light direction (0,−1,0) the eye point used by the
code is `-lightdir = (0,1,0)`, at squared distance 361 from the claimed
(0,20,0); and the computed view matrix differs from the look-at-from-(0,20,0)
matrix (translation entry −1 versus −20), so the view does not look from
approximately (0,20,0) under any tolerance below 19. -/
theorem c5_counterexample :
    shadowEye ⟨0, -1, 0⟩ = ⟨0, 1, 0⟩ ∧
    ((shadowEye ⟨0, -1, 0⟩).sub ⟨0, 20, 0⟩).dot
      ((shadowEye ⟨0, -1, 0⟩).sub ⟨0, 20, 0⟩) = 361 ∧
    shadowView ⟨0, -1, 0⟩ 2 3 = -1 ∧
    lookAtRH ⟨0, 20, 0⟩ ⟨0, 0, 0⟩ ⟨0, 1, 0⟩ 2 3 = -20 ∧
    shadowView ⟨0, -1, 0⟩ ≠ lookAtRH ⟨0, 20, 0⟩ ⟨0, 0, 0⟩ ⟨0, 1, 0⟩ := by
  refine ⟨?_, ?_, ?_, ?_, ?_⟩
  · simp [shadowEye, V3.neg]
  · simp [shadowEye, V3.neg, V3.sub, V3.dot]
    norm_num
  · rw [shadowView_down, lookAt_from_eye1]
    norm_num
  · rw [lookAt_from_eye20]
    norm_num
  · intro hcontra
    rw [shadowView_down, lookAt_from_eye1, lookAt_from_eye20] at hcontra
    have h23 := congrFun (congrFun hcontra 2) 3
    norm_num at h23

/-- C5 (amended): with light direction (0,−1,0) the shadow view matrix is the
look-at from the point `-light_direction = (0,1,0)` toward the origin with
up = (0,1,0) — a degenerate configuration, since the view direction is
parallel to `up` — and the point (0,3,0) maps under the shadow matrix
`proj * view` to clip coordinates (0,0) in x and y, inside [−1,1]². -/
theorem c5_shadow_view_from_neg_lightdir :
    shadowView ⟨0, -1, 0⟩ = lookAtRH ⟨0, 1, 0⟩ ⟨0, 0, 0⟩ ⟨0, 1, 0⟩ ∧
    (shadowMatrix ⟨0, -1, 0⟩).mulVec ![0, 3, 0, 1] 0 = 0 ∧
    (shadowMatrix ⟨0, -1, 0⟩).mulVec ![0, 3, 0, 1] 1 = 0 ∧
    (-1 ≤ (shadowMatrix ⟨0, -1, 0⟩).mulVec ![0, 3, 0, 1] 0 ∧
      (shadowMatrix ⟨0, -1, 0⟩).mulVec ![0, 3, 0, 1] 0 ≤ 1) ∧
    (-1 ≤ (shadowMatrix ⟨0, -1, 0⟩).mulVec ![0, 3, 0, 1] 1 ∧
      (shadowMatrix ⟨0, -1, 0⟩).mulVec ![0, 3, 0, 1] 1 ≤ 1) := by
  have hpv : (shadowMatrix ⟨0, -1, 0⟩).mulVec ![0, 3, 0, 1] =
      shadowProj.mulVec ((shadowView ⟨0, -1, 0⟩).mulVec ![0, 3, 0, 1]) := by
    rw [shadowMatrix, ← Matrix.mulVec_mulVec]
  have hview : (shadowView ⟨0, -1, 0⟩).mulVec ![0, 3, 0, 1] = ![0, 0, 2, 1] := by
    rw [shadowView_down, lookAt_from_eye1]
    funext i
    fin_cases i <;>
      simp [Matrix.mulVec, Matrix.dotProduct, Fin.sum_univ_four,
        Matrix.vecHead, Matrix.vecTail] <;> norm_num
  have hproj : shadowProj.mulVec ![0, 0, 2, 1] = ![0, 0, -2/5, 1] := by
    funext i
    fin_cases i <;>
      simp [shadowProj, orthographic, Matrix.mulVec, Matrix.dotProduct,
        Fin.sum_univ_four, Matrix.vecHead, Matrix.vecTail] <;> norm_num
  refine ⟨shadowView_down, ?_, ?_, ⟨?_, ?_⟩, ⟨?_, ?_⟩⟩ <;>
    rw [hpv, hview, hproj] <;> norm_num


/-! ## Fatal component lookups in `Engine::render` (C8) -/

/-- An object as `Engine::render` inspects it: whether a Material component
and a Mesh component are present (their payloads are irrelevant to the panic
behaviour and carried as opaque handles). -/
structure RObj where
  material : Option Nat
  mesh : Option Nat
  deriving DecidableEq, Repr

/-- The message of the Rust panic raised by `Option::unwrap` on `None` — the
only diagnostic produced when a Material or Mesh component is missing
(engine.rs 109 and 89/117).  It names neither the missing capability nor the
offending object. -/
def unwrapPanicMessage : String :=
  "called `Option::unwrap()` on a `None` value"

/-- `Engine::render` (engine.rs 99–121) restricted to its component lookups:
for each object, `get_component_by_type::<Material>().unwrap()` then (inside
`render_object`, engine.rs 89) `get_component_by_type::<Mesh>().unwrap()`; a
missing component panics, aborting the whole frame.  `Except.error` carries
the panic message, `Except.ok` the number of objects drawn. -/
def renderChecked : List RObj → Except String Nat
  | [] => .ok 0
  | o :: rest =>
    match o.material with
    | none => .error unwrapPanicMessage
    | some _ =>
      match o.mesh with
      | none => .error unwrapPanicMessage
      | some _ => (renderChecked rest).map (· + 1)

/-- C8 counterexample: a missing Material and a missing Mesh produce the very
same generic unwrap panic message, so the failure diagnostic identifies
neither the missing capability nor the object. -/
theorem c8_counterexample :
    renderChecked [⟨none, some 1⟩] = .error unwrapPanicMessage ∧
    renderChecked [⟨some 1, none⟩] = .error unwrapPanicMessage ∧
    renderChecked [⟨none, some 1⟩] = renderChecked [⟨some 1, none⟩] :=
  ⟨rfl, rfl, rfl⟩

/-- C8 (amended): if any object in the list lacks a Material or a Mesh
component, the whole render call aborts with the unwrap panic — the frame
fails fatally, no object is skipped and no default is substituted — but the
diagnostic is the generic `Option::unwrap` panic message, which identifies
neither the missing capability nor the object. -/
theorem c8_render_fatal_on_missing (objs : List RObj)
    (h : ∃ o ∈ objs, o.material = none ∨ o.mesh = none) :
    renderChecked objs = .error unwrapPanicMessage := by
  induction objs with
  | nil => simp at h
  | cons o rest ih =>
    obtain ⟨o', ho', hmiss⟩ := h
    rcases List.mem_cons.mp ho' with rfl | hmem
    · rcases hmiss with hm | hm
      · simp [renderChecked, hm]
      · cases hmat : o'.material with
        | none => simp [renderChecked, hmat]
        | some v => simp [renderChecked, hmat, hm]
    · cases hmat : o.material with
      | none => simp [renderChecked, hmat]
      | some v =>
        cases hmesh : o.mesh with
        | none => simp [renderChecked, hmat, hmesh]
        | some w =>
          simp [renderChecked, hmat, hmesh, ih ⟨o', hmem, hmiss⟩, Except.map]

/-- Witness for C8: a frame whose second object lacks its Mesh component
aborts with the unwrap panic. -/
theorem c8_render_fatal_on_missing_witness :
    renderChecked [⟨some 3, some 4⟩, ⟨some 2, none⟩] = .error unwrapPanicMessage :=
  c8_render_fatal_on_missing _ ⟨⟨some 2, none⟩, by simp, Or.inr rfl⟩

/-! ## Material parameter binding (C7) -/

/-- A material parameter (material.rs 8–11): a texture reference (an opaque
handle) or a scalar float. -/
inductive MaterialParam where
  | texture (id : Nat)
  | scalar (v : ℚ)
  deriving DecidableEq, Repr

/-- Whether a parameter is a texture parameter. -/
def MaterialParam.isTexture : MaterialParam → Bool
  | .texture _ => true
  | .scalar _ => false

/-- Modelled from the spec: the parameter-binding loop of material setup.
The loop that walks a Material's parameter table and binds each texture
parameter to the next GPU texture unit is not present under `src/`
(material.rs 13–16 declares only the `params: HashMap<String, MaterialParam>`
table, and `Engine::setup_material` in engine.rs predates that table).
Following §4.3 of the spec — "texture parameters bind to successive texture
units in table order … scalar parameters write directly to named uniforms" —
`bindTextures u ps` assigns the texture parameters of the table slice `ps`
the successive units `u, u+1, …` in table iteration order.  A `HashMap`
instance's iteration sequence is modelled as the fixed list `ps`. -/
def bindTextures (u : Nat) : List (String × MaterialParam) → List (String × Nat)
  | [] => []
  | (n, .texture _) :: rest => (n, u) :: bindTextures (u + 1) rest
  | (_, .scalar _) :: rest => bindTextures u rest

/-- The names of the texture parameters of a table, in table order. -/
def textureNames (ps : List (String × MaterialParam)) : List String :=
  (ps.filter fun p => p.2.isTexture).map Prod.fst

theorem bindTextures_spec (u : Nat) (ps : List (String × MaterialParam)) :
    (bindTextures u ps).map Prod.fst = textureNames ps ∧
    (bindTextures u ps).map Prod.snd = List.range' u (textureNames ps).length := by
  induction ps generalizing u with
  | nil => simp [bindTextures, textureNames]
  | cons p rest ih =>
    obtain ⟨n, mp⟩ := p
    cases mp with
    | texture id =>
      have h1 := (ih (u + 1)).1
      have h2 := (ih (u + 1)).2
      simp [bindTextures, textureNames, MaterialParam.isTexture, List.filter_cons,
        List.range'_succ] at h1 h2 ⊢
      exact ⟨h1, h2⟩
    | scalar v =>
      have h1 := (ih u).1
      have h2 := (ih u).2
      simp [bindTextures, textureNames, MaterialParam.isTexture, List.filter_cons] at h1 h2 ⊢
      exact ⟨h1, h2⟩

/-- C7: binding a Material's parameter table assigns texture units
positionally and deterministically: the bound names are exactly the texture
parameter names in table order and the assigned units are `0, 1, 2, …` in
that order, so any two binds over the same Material (two frames, or two runs
of the binding loop over the same table) give every texture parameter name
the same texture unit. -/
theorem c7_texture_units_stable (ps : List (String × MaterialParam)) :
    (bindTextures 0 ps).map Prod.fst = textureNames ps ∧
    (bindTextures 0 ps).map Prod.snd = List.range (textureNames ps).length ∧
    ∀ qs : List (String × MaterialParam), qs = ps →
      bindTextures 0 qs = bindTextures 0 ps := by
  refine ⟨(bindTextures_spec 0 ps).1, ?_, ?_⟩
  · rw [(bindTextures_spec 0 ps).2, List.range_eq_range']
  · intro qs hqs
    rw [hqs]

/-- Witness for C7 at a concrete table (texture, scalar, texture): units are
assigned `0` and `1` to the two texture parameters in table order. -/
theorem c7_texture_units_stable_witness :
    (bindTextures 0 [("uDepthMap", MaterialParam.texture 5),
        ("uShininess", MaterialParam.scalar 32),
        ("uTex", MaterialParam.texture 9)]).map Prod.snd = [0, 1] := by
  rw [(c7_texture_units_stable [("uDepthMap", MaterialParam.texture 5),
    ("uShininess", MaterialParam.scalar 32),
    ("uTex", MaterialParam.texture 9)]).2.1]
  rfl

/-! ## Component identity tokens (`Engine::next_component_id`, C9) -/

/-- The token returned by the `(n+1)`-th call to `Engine::next_component_id`
(engine.rs 133–137): the `static CURR_COMPONENT_COUNTER: AtomicU32` starts at
`1`, and each `fetch_add(1, Ordering::SeqCst)` returns the previous value and
increments, wrapping at `2 ^ 32`; the result is widened to `u64` afterwards,
which does not undo the 32-bit wrap. -/
def tokenAt : Nat → Nat
  | 0 => 1
  | n + 1 => (tokenAt n + 1) % 2 ^ 32

theorem tokenAt_eq (n : Nat) : tokenAt n = (1 + n) % 2 ^ 32 := by
  induction n with
  | zero => simp [tokenAt]
  | succ n ih =>
    rw [tokenAt, ih, Nat.mod_add_mod]
    congr 1

/-- C9 counterexample: the identity counter is a wrapping 32-bit `fetch_add`,
so the token sequence is not monotonic and tokens repeat: the 4294967295-th
call (0-based index 2^32 − 1) returns 0, smaller than the previous call's
2^32 − 1, and the call at index 2^32 returns 1 — the same token as call 0. -/
theorem c9_counterexample :
    tokenAt (2 ^ 32 - 2) = 2 ^ 32 - 1 ∧
    tokenAt (2 ^ 32 - 1) = 0 ∧
    tokenAt (2 ^ 32 - 1) < tokenAt (2 ^ 32 - 2) ∧
    tokenAt (2 ^ 32) = tokenAt 0 := by
  have h2 := tokenAt_eq (2 ^ 32 - 2)
  have h1 := tokenAt_eq (2 ^ 32 - 1)
  have h0 := tokenAt_eq (2 ^ 32)
  have hz : tokenAt 0 = 1 := rfl
  have hpow : (2 : ℕ) ^ 32 = 4294967296 := by norm_num
  rw [hpow] at h2 h1 h0 ⊢
  rw [h2, h1, h0, hz]
  norm_num

/-- C9 (amended): identity tokens are strictly increasing and pairwise
distinct as long as fewer than `2 ^ 32` tokens have been generated (the
`u32` counter wraps beyond that). -/
theorem c9_tokens_strictly_increasing (i j : Nat) (hij : i < j)
    (hj : j ≤ 2 ^ 32 - 2) :
    tokenAt i < tokenAt j ∧ tokenAt i ≠ tokenAt j := by
  have hpow : (2 : ℕ) ^ 32 = 4294967296 := by norm_num
  rw [tokenAt_eq, tokenAt_eq, hpow] at *
  rw [Nat.mod_eq_of_lt (by omega), Nat.mod_eq_of_lt (by omega)]
  omega

/-- Witness for C9: the first call's token 1 is smaller than (and different
from) the second call's token 2. -/
theorem c9_tokens_strictly_increasing_witness :
    tokenAt 0 < tokenAt 1 ∧ tokenAt 0 ≠ tokenAt 1 :=
  c9_tokens_strictly_increasing 0 1 (by norm_num) (by norm_num)


end Unrust
